import Mathlib

/-!
Verification of the yt-music-organizater core: a shallow embedding of the
keyword classifier, year extractor (music_categorizer.py) and the cache-aware
retrieval pipeline (youtube_api.py), with theorems checking the design
document's claims against it.

Python strings are modelled as `String`/`List Char`, timestamps as `Int`
(datetime values under subtraction and comparison), dictionaries in insertion
order as association lists, and raised exceptions as `Except` values.
-/

namespace YTMusic

/-- Prefix test on character lists: `startsWith kw l` is true when `kw` is an
initial segment of `l`. Building block for the Python substring test. -/
def startsWith : List Char → List Char → Bool
  | [], _ => true
  | _ :: _, [] => false
  | a :: as, b :: bs => a == b && startsWith as bs

/-- Python's substring containment `kw in text`, on character lists: `kw`
occurs contiguously somewhere in the text. -/
def substrOf (kw : List Char) : List Char → Bool
  | [] => startsWith kw []
  | b :: bs => startsWith kw (b :: bs) || substrOf kw bs

/-- The per-keyword test `keyword in text or keyword in tags` from
`MusicCategorizer._detect_genre` / `_detect_mood` (music_categorizer.py
lines 93 and 111): substring of the combined text, or exact list member of
the tags. -/
def keywordMatches (text : String) (tags : List String) (kw : String) : Bool :=
  substrOf kw.data text.data || tags.contains kw

/-- `self.genre_keywords` (music_categorizer.py lines 11-22), an insertion-
ordered dict modelled as an ordered association list. -/
def genre_keywords : List (String × List String) :=
  [("pop", ["pop", "dance pop", "electropop"]),
   ("rock", ["rock", "alternative", "indie", "punk", "metal", "grunge"]),
   ("hip hop", ["hip hop", "rap", "trap", "drill", "r&b", "rnb"]),
   ("electronic", ["edm", "electronic", "house", "techno", "dubstep", "trance", "drum and bass"]),
   ("country", ["country", "folk", "bluegrass", "americana"]),
   ("jazz", ["jazz", "blues", "soul", "funk"]),
   ("classical", ["classical", "orchestra", "piano", "symphony", "concerto"]),
   ("latin", ["latin", "reggaeton", "salsa", "bachata", "cumbia"]),
   ("k-pop", ["k-pop", "kpop", "k pop"]),
   ("j-pop", ["j-pop", "jpop", "j pop"])]

/-- `self.mood_keywords` (music_categorizer.py lines 25-31). -/
def mood_keywords : List (String × List String) :=
  [("happy", ["happy", "upbeat", "uplifting", "cheerful", "fun", "feel good", "party"]),
   ("sad", ["sad", "melancholy", "heartbreak", "emotional", "tearful", "ballad"]),
   ("relaxing", ["chill", "relax", "calm", "peaceful", "ambient", "sleep", "study"]),
   ("energetic", ["energetic", "workout", "fitness", "gym", "hype", "energy", "pump"]),
   ("romantic", ["love", "romantic", "romance", "wedding", "valentine"])]

/-- The shared loop shape of `_detect_genre` and `_detect_mood`: walk the
category table in order, and inside each category walk the keywords in order;
the first category with a matching keyword is returned, else the default. -/
def firstCategory (table : List (String × List String)) (text : String)
    (tags : List String) (dflt : String) : String :=
  match table with
  | [] => dflt
  | (cat, kws) :: rest =>
      if kws.any (keywordMatches text tags) then cat
      else firstCategory rest text tags dflt

/-- `MusicCategorizer._detect_genre` (music_categorizer.py lines 80-96). -/
def detect_genre (text : String) (tags : List String) : String :=
  firstCategory genre_keywords text tags "unknown"

/-- `MusicCategorizer._detect_mood` (music_categorizer.py lines 98-114). -/
def detect_mood (text : String) (tags : List String) : String :=
  firstCategory mood_keywords text tags "other"

/-- Python `re` word character `\w` for the ASCII texts at hand: letter,
digit or underscore. -/
def isWordChar (c : Char) : Bool :=
  c.isAlphanum || c == '_'

/-- The regex character class `[0-9]`: code points 48 ('0') to 57 ('9'). -/
def isDigitChar (c : Char) : Bool :=
  48 ≤ c.toNat && c.toNat ≤ 57

/-- The leading `\b` of the year pattern: both alternatives start with a word
character (a digit), so the boundary holds exactly when the preceding
character is absent or not a word character. -/
def boundaryBefore (prev : Option Char) : Bool :=
  match prev with
  | none => true
  | some p => !isWordChar p

/-- The trailing `\b`: both alternatives end with a digit, so the boundary
holds exactly when the following character is absent or not a word
character. -/
def boundaryAfter (rest : List Char) : Bool :=
  match rest with
  | [] => true
  | r :: _ => !isWordChar r

/-- One anchored attempt of the pattern `\b(19[0-9]{2}|20[0-2][0-9])\b`
(music_categorizer.py line 34) at the current position: `prev` is the
character just before the position (`none` at the start of the text).
Returns `int(match.group(1))` on success. -/
def yearAt (prev : Option Char) : List Char → Option Nat
  | c1 :: c2 :: c3 :: c4 :: rest =>
      if (boundaryBefore prev
           && (((c1 == '1' && c2 == '9') && (isDigitChar c3 && isDigitChar c4))
               || ((c1 == '2' && c2 == '0')
                   && ((48 ≤ c3.toNat && c3.toNat ≤ 50) && isDigitChar c4)))
           && boundaryAfter rest) = true
      then some ((c1.toNat - 48) * 1000 + (c2.toNat - 48) * 100
                 + (c3.toNat - 48) * 10 + (c4.toNat - 48))
      else none
  | _ => none

/-- `re.search` over the year pattern: try every position left to right and
return the first successful match. `prev` carries the character before the
current position for the word-boundary test. -/
def searchYear (prev : Option Char) : List Char → Option Nat
  | [] => none
  | c :: rest =>
      match yearAt prev (c :: rest) with
      | some y => some y
      | none => searchYear (some c) rest

/-- `MusicCategorizer._extract_year` (music_categorizer.py lines 116-131):
`re.search(self.year_pattern, text)`, integer of group 1, else `None`. -/
def extract_year (text : String) : Option Nat :=
  searchYear none text.data

/-- The character immediately preceding position `pre.length` in a text that
starts with `pre`, when the text is preceded by `prev` itself: the last
element of `pre`, or `prev` when `pre` is empty. -/
def lastChar (prev : Option Char) : List Char → Option Char
  | [] => prev
  | c :: pre => lastChar (some c) pre

end YTMusic

namespace YTMusic

/-- A persisted cache record `{'timestamp': ..., 'results': ...}`
(youtube_api.py lines 154-158). -/
structure CacheEntry (α : Type) where
  timestamp : Int
  results : List α

/-- The cache read of `search_music` (youtube_api.py lines 108-113): the store
maps a cache key to the pickled entry at that path (`none` when the file does
not exist); the payload is returned only when the entry exists and
`timestamp > now - ttl`. An expired entry is left in the store. -/
def cacheLookup {α : Type} (store : String → Option (CacheEntry α))
    (key : String) (now ttl : Int) : Option (List α) :=
  match store key with
  | none => none
  | some entry => if entry.timestamp > now - ttl then some entry.results else none

/-- The cache write of `search_music` (youtube_api.py lines 154-158): store
the results under the key with the current timestamp, overwriting. -/
def cachePut {α : Type} (store : String → Option (CacheEntry α))
    (key : String) (now : Int) (results : List α) :
    String → Option (CacheEntry α) :=
  fun k => if k = key then some ⟨now, results⟩ else store k

/-- Python `query.replace(' ', '_')`: every space becomes an underscore. -/
def replaceSpaces (q : String) : String :=
  ⟨q.data.map fun c => if c = ' ' then '_' else c⟩

/-- The cache fingerprint `f"music_search_{query.replace(' ', '_')}.pkl"`
(youtube_api.py line 104). -/
def cache_key (query : String) : String :=
  "music_search_" ++ replaceSpaces query ++ ".pkl"

/-- A `googleapiclient.errors.HttpError`: `e.resp.status` and `e.content`. -/
structure HttpErr where
  status : Nat
  content : String

/-- Outcome of the cache-read block of `search_music` (youtube_api.py lines
108-113): the file is absent, or `pickle.load` yields an entry, or opening or
unpickling raises (unreadable or corrupt file). -/
inductive CacheReadOutcome (α : Type) where
  | absent
  | loaded (entry : CacheEntry α)
  | ioError

/-- Outcome of the cache-write block (youtube_api.py lines 154-158). -/
inductive WriteOutcome where
  | ok
  | ioError

/-- An exception escaping `search_music` to its caller. -/
inductive SearchFailure where
  | cacheReadError
  | cacheWriteError
deriving DecidableEq

/-- The body of the `try` in `search_music` (youtube_api.py lines 115-164)
after a cache miss: fetch from the network (`HttpError` is caught and yields
`[]`), then write the cache — a write failure is not an `HttpError`, so it
escapes the `except` clause and propagates. -/
def searchFetch {α : Type} (fetch : Except HttpErr (List α))
    (write : WriteOutcome) : Except SearchFailure (List α) :=
  match fetch with
  | Except.error _ => Except.ok []
  | Except.ok results =>
      match write with
      | WriteOutcome.ioError => Except.error SearchFailure.cacheWriteError
      | WriteOutcome.ok => Except.ok results

/-- `YouTubeAPI.search_music` (youtube_api.py lines 91-164) as a function of
the outcomes of its effects. The cache read (lines 108-113) sits outside the
`try`, so a read failure escapes at once; a fresh entry short-circuits the
fetch; an absent file or an expired entry falls through to `searchFetch`. -/
def search_music {α : Type} (read : CacheReadOutcome α) (now ttl : Int)
    (fetch : Except HttpErr (List α)) (write : WriteOutcome) :
    Except SearchFailure (List α) :=
  match read with
  | CacheReadOutcome.ioError => Except.error SearchFailure.cacheReadError
  | CacheReadOutcome.loaded entry =>
      if entry.timestamp > now - ttl then Except.ok entry.results
      else searchFetch fetch write
  | CacheReadOutcome.absent => searchFetch fetch write

/-- A raw playlist item as consumed by `get_playlist_items`:
`contentDetails.videoId` plus the snippet fields used. -/
structure PlaylistItemRaw where
  videoId : String
  title : String
  position : Nat
  publishedAt : String
  channelTitle : String

/-- The record built for each playlist item (youtube_api.py lines 229-235). -/
structure PlaylistVideo where
  id : String
  title : String
  position : Nat
  published_at : String
  channel : String

/-- `YouTubeAPI.get_playlist_items` (youtube_api.py lines 207-241) as a
function of the provider response: an `HttpError` is caught and yields `[]`;
otherwise each item is mapped to its output record. -/
def get_playlist_items (resp : Except HttpErr (List PlaylistItemRaw)) :
    List PlaylistVideo :=
  match resp with
  | Except.error _ => []
  | Except.ok items =>
      items.map fun it => ⟨it.videoId, it.title, it.position, it.publishedAt, it.channelTitle⟩

/-- One page of the liked-videos playlist: the processed items in order —
`none` stands for an item whose `contentDetails` has no `videoId` (a deleted
video), `some v` for the video record built from the item — and whether the
response carries a `nextPageToken`. -/
structure Page (α : Type) where
  items : List (Option α)
  hasNext : Bool

/-- The `while` loop of `get_liked_videos` (youtube_api.py lines 276-316).
`pages i n` is the provider's response to the `i`-th request made with
`maxResults=n` (or the `HttpError` it raises); `fuel` bounds the number of
remaining requests, `none` meaning the loop was still running when the bound
ran out. Each round requests `min(50, max_results - len(videos))` items,
appends the items that have a `videoId`, and exits when the response has no
continuation token or the accumulated count reaches the maximum. -/
def likedLoop {α : Type} (pages : Nat → Nat → Except HttpErr (Page α))
    (maxResults : Nat) : Nat → Nat → List α → Option (Except HttpErr (List α))
  | 0, _, videos =>
      if videos.length < maxResults then none else some (Except.ok videos)
  | fuel + 1, i, videos =>
      if videos.length < maxResults then
        match pages i (min 50 (maxResults - videos.length)) with
        | Except.error e => some (Except.error e)
        | Except.ok page =>
            let kept := videos ++ page.items.filterMap id
            if page.hasNext ∧ kept.length < maxResults then
              likedLoop pages maxResults fuel (i + 1) kept
            else some (Except.ok kept)
      else some (Except.ok videos)

/-- `YouTubeAPI.get_liked_videos` (youtube_api.py lines 243-322) as a function
of the collaborator outcomes: without OAuth it returns `[]`; the channels
call may raise (caught: `[]`) or report no channel (`[]`); otherwise the
pagination loop runs and an `HttpError` raised by any page request is caught,
yielding `[]`. -/
def get_liked_videos {α : Type} (useOauth : Bool)
    (channels : Except HttpErr (Option String))
    (pages : Nat → Nat → Except HttpErr (Page α)) (maxResults fuel : Nat) :
    Option (List α) :=
  if useOauth = false then some []
  else
    match channels with
    | Except.error _ => some []
    | Except.ok none => some []
    | Except.ok (some _) =>
        match likedLoop pages maxResults fuel 0 [] with
        | none => none
        | some (Except.error _) => some []
        | some (Except.ok vs) => some vs

end YTMusic

namespace YTMusic

/-! ### Classifier: first-match-wins and defaults -/

theorem firstCategory_eq_find (text : String) (tags : List String) (dflt : String) :
    ∀ table : List (String × List String),
      firstCategory table text tags dflt
        = Option.getD
            ((table.find? fun p => p.2.any (keywordMatches text tags)).map Prod.fst) dflt
  | [] => rfl
  | (cat, kws) :: rest => by
      have hrest := firstCategory_eq_find text tags dflt rest
      by_cases h : kws.any (keywordMatches text tags) = true
      · simp [firstCategory, List.find?_cons, h]
      · rw [Bool.not_eq_true] at h
        simp [firstCategory, List.find?_cons, h, hrest]

theorem firstCategory_of_no_match (text : String) (tags : List String) (dflt : String) :
    ∀ table : List (String × List String),
      (∀ p ∈ table, ∀ kw ∈ p.2, keywordMatches text tags kw = false) →
      firstCategory table text tags dflt = dflt
  | [], _ => rfl
  | (cat, kws) :: rest, h => by
      have hany : kws.any (keywordMatches text tags) = false := by
        rw [List.any_eq_false]
        intro kw hkw
        simp [h (cat, kws) (List.mem_cons_self _ _) kw hkw]
      have hrest := firstCategory_of_no_match text tags dflt rest
        (fun p hp => h p (List.mem_cons_of_mem _ hp))
      simp [firstCategory, hany, hrest]

/-- C1: for every text and tag list, `detect_genre` scans the genre table in
its insertion order and returns the first category having a keyword that is a
substring of the text or an exact element of the tag list (`List.find?`
returns the first entry satisfying the predicate, so an earlier category
shadows every later one); in particular a text matching both a pop and a rock
keyword yields "pop". -/
theorem detect_genre_first_match (text : String) (tags : List String) :
    detect_genre text tags
      = Option.getD
          ((genre_keywords.find? fun p => p.2.any (keywordMatches text tags)).map Prod.fst)
          "unknown"
    ∧ detect_genre "best pop rock mix" [] = "pop" :=
  ⟨firstCategory_eq_find text tags "unknown" genre_keywords, by decide⟩

/-- C9: when no keyword of the genre table matches the text or tags,
`detect_genre` returns "unknown", and when no keyword of the mood table
matches, `detect_mood` returns "other"; both functions are total. -/
theorem detect_defaults (text : String) (tags : List String)
    (hg : ∀ p ∈ genre_keywords, ∀ kw ∈ p.2, keywordMatches text tags kw = false)
    (hm : ∀ p ∈ mood_keywords, ∀ kw ∈ p.2, keywordMatches text tags kw = false) :
    detect_genre text tags = "unknown" ∧ detect_mood text tags = "other" :=
  ⟨firstCategory_of_no_match text tags "unknown" genre_keywords hg,
   firstCategory_of_no_match text tags "other" mood_keywords hm⟩

/-- Witness for C9 at a concrete non-matching input. -/
theorem detect_defaults_witness :
    detect_genre "qqq vvv" [] = "unknown" ∧ detect_mood "qqq vvv" [] = "other" :=
  detect_defaults "qqq vvv" [] (by decide) (by decide)

/-! ### Cache: hit condition, expiry, round trip, fingerprint collision -/

theorem cacheLookup_eq_none {α : Type} {store : String → Option (CacheEntry α)}
    {key : String} {now ttl : Int} (h : store key = none) :
    cacheLookup store key now ttl = none := by
  unfold cacheLookup
  rw [h]

theorem cacheLookup_eq_some {α : Type} {store : String → Option (CacheEntry α)}
    {key : String} {now ttl : Int} {entry : CacheEntry α} (h : store key = some entry) :
    cacheLookup store key now ttl
      = if entry.timestamp > now - ttl then some entry.results else none := by
  unfold cacheLookup
  rw [h]

theorem cachePut_same {α : Type} (store : String → Option (CacheEntry α)) (key : String)
    (now : Int) (payload : List α) :
    cachePut store key now payload key = some ⟨now, payload⟩ := by
  unfold cachePut
  rw [if_pos rfl]

/-- C2: the cache read returns the stored payload exactly when an entry exists
for the key and `now - timestamp < ttl` (the code's `timestamp > now - ttl`);
an entry written at time `T` and queried at `now = T + ttl + 1` with that ttl
is a miss, and the lookup never deletes anything (it does not touch the
store). -/
theorem cacheLookup_hit_iff {α : Type} (store : String → Option (CacheEntry α))
    (key : String) (now ttl : Int) :
    (∀ p, cacheLookup store key now ttl = some p ↔
        ∃ entry, store key = some entry ∧ now - entry.timestamp < ttl
                 ∧ p = entry.results)
    ∧ ∀ (payload : List α) (T : Int),
        cacheLookup (cachePut store key T payload) key (T + ttl + 1) ttl = none := by
  constructor
  · intro p
    cases h : store key with
    | none =>
        rw [cacheLookup_eq_none h]
        simp [h]
    | some entry =>
        rw [cacheLookup_eq_some h]
        by_cases hts : entry.timestamp > now - ttl
        · rw [if_pos hts]
          constructor
          · intro hp
            exact ⟨entry, rfl, by omega, (Option.some_inj.mp hp).symm⟩
          · rintro ⟨e, he, hlt, rfl⟩
            obtain rfl : entry = e := Option.some_inj.mp he
            rfl
        · rw [if_neg hts]
          constructor
          · intro hp; exact absurd hp (by simp)
          · rintro ⟨e, he, hlt, rfl⟩
            obtain rfl : entry = e := Option.some_inj.mp he
            omega
  · intro payload T
    rw [cacheLookup_eq_some (cachePut_same store key T payload)]
    show (if T > T + ttl + 1 - ttl then some payload else none) = none
    rw [if_neg (by omega)]

/-- C6: a `put` followed immediately by a `get` under the same key with any
positive ttl returns exactly the payload that was stored. -/
theorem cache_round_trip {α : Type} (store : String → Option (CacheEntry α))
    (key : String) (now : Int) (payload : List α) (ttl : Int) (h : 0 < ttl) :
    cacheLookup (cachePut store key now payload) key now ttl = some payload := by
  rw [cacheLookup_eq_some (cachePut_same store key now payload)]
  show (if now > now - ttl then some payload else none) = some payload
  rw [if_pos (by omega)]

/-- Witness for C6 at a concrete store, key, time and payload. -/
theorem cache_round_trip_witness :
    0 < (1 : Int)
    ∧ cacheLookup (cachePut (fun _ => (none : Option (CacheEntry Nat))) "k" 0 [3, 5]) "k" 0 1
        = some [3, 5] :=
  ⟨by decide, cache_round_trip (fun _ => none) "k" 0 [3, 5] 1 (by decide)⟩

/-- C10: the fingerprint replaces only spaces by underscores, so the distinct
queries "a b" and "a_b" collide on the same cache key, and a payload stored
under the key of "a b" is returned, within the ttl, for a lookup under the
key of "a_b". -/
theorem cache_key_collision :
    cache_key "a b" = cache_key "a_b"
    ∧ ("a b" : String) ≠ "a_b"
    ∧ ∀ (store : String → Option (CacheEntry Nat)) (now : Int) (payload : List Nat),
        cacheLookup (cachePut store (cache_key "a b") now payload) (cache_key "a_b") now 1
          = some payload := by
  refine ⟨by decide, by decide, ?_⟩
  intro store now payload
  have hput : cachePut store (cache_key "a b") now payload (cache_key "a_b")
      = some ⟨now, payload⟩ := by
    unfold cachePut
    rw [if_pos (by decide : cache_key "a_b" = cache_key "a b")]
  rw [cacheLookup_eq_some hput]
  show (if now > now - 1 then some payload else none) = some payload
  rw [if_pos (by omega)]

/-! ### Retrieval pipeline: error propagation -/

/-- C3 counterexample: a failure while reading the cache file (a corrupt or
unreadable pickle) aborts `search_music` even though the fetch would have
succeeded — the cache read sits outside the `try`/`except HttpError`, so the
exception propagates instead of being treated as a miss. -/
theorem search_music_cache_read_error_fails :
    search_music (α := Nat) CacheReadOutcome.ioError 0 24 (Except.ok [7]) WriteOutcome.ok
        = Except.error SearchFailure.cacheReadError
    ∧ Except.error SearchFailure.cacheReadError
        ≠ (Except.ok [7] : Except SearchFailure (List Nat)) :=
  ⟨rfl, by simp⟩

/-- C3 amended: a cache read failure propagates out of `search_music` as an
exception, as does a cache write failure after a successful fetch; only an
absent cache file (or an expired entry) is treated as a miss, in which case
the pipeline fetches and returns the fetched results. -/
theorem search_music_cache_error_propagates {α : Type} (now ttl : Int)
    (fetch : Except HttpErr (List α)) (write : WriteOutcome) :
    search_music CacheReadOutcome.ioError now ttl fetch write
        = Except.error SearchFailure.cacheReadError
    ∧ (∀ results : List α,
        search_music CacheReadOutcome.absent now ttl (Except.ok results) WriteOutcome.ioError
          = Except.error SearchFailure.cacheWriteError)
    ∧ (∀ results : List α,
        search_music CacheReadOutcome.absent now ttl (Except.ok results) WriteOutcome.ok
          = Except.ok results)
    ∧ (∀ results old : List α,
        search_music (CacheReadOutcome.loaded ⟨now - ttl, old⟩) now ttl
            (Except.ok results) WriteOutcome.ok
          = Except.ok results) := by
  refine ⟨rfl, fun _ => rfl, fun _ => rfl, fun results old => ?_⟩
  show (if now - ttl > now - ttl then Except.ok old
        else searchFetch (Except.ok results) WriteOutcome.ok) = Except.ok results
  rw [if_neg (by omega)]
  rfl

/-- C4: at each retrieval boundary an `HttpError` from the collaborator is
caught and turned into an empty result list — `search_music` on a cache miss
whose fetch raises returns `Except.ok []` (no exception), `get_playlist_items`
returns `[]`, and `get_liked_videos` returns `some []` whether the channels
call or a page fetch raises. -/
theorem http_error_yields_empty {α : Type} (e : HttpErr) :
    (∀ (now ttl : Int) (write : WriteOutcome),
        search_music (α := α) CacheReadOutcome.absent now ttl (Except.error e) write
          = Except.ok [])
    ∧ get_playlist_items (Except.error e) = []
    ∧ (∀ (pages : Nat → Nat → Except HttpErr (Page α)) (maxResults fuel : Nat),
        get_liked_videos true (Except.error e) pages maxResults fuel = some [])
    ∧ (∀ (pid : String) (maxResults fuel : Nat), 0 < fuel →
        get_liked_videos (α := α) true (Except.ok (some pid))
            (fun _ _ => Except.error e) maxResults fuel
          = some []) := by
  refine ⟨fun _ _ _ => rfl, rfl, fun _ _ _ => rfl, ?_⟩
  intro pid maxResults fuel hf
  match fuel, hf with
  | f + 1, _ =>
      cases maxResults with
      | zero => rfl
      | succ m =>
          show (match likedLoop (fun _ _ => Except.error e) (m + 1) (f + 1) 0 [] with
                | none => none
                | some (Except.error _) => some []
                | some (Except.ok vs) => some vs) = some ([] : List α)
          rw [show likedLoop (fun _ _ => Except.error e) (m + 1) (f + 1) 0 ([] : List α)
                = some (Except.error e) from by
            unfold likedLoop
            rw [if_pos (by simp)]]

/-- Witness for C4 at a concrete provider error and page budget. -/
theorem http_error_yields_empty_witness :
    get_liked_videos (α := Nat) true (Except.ok (some "LL"))
        (fun _ _ => Except.error ⟨403, "quotaExceeded"⟩) 10 1 = some [] :=
  (http_error_yields_empty ⟨403, "quotaExceeded"⟩).2.2.2 "LL" 10 1 (by decide)

/-! ### Pagination loop -/

theorem likedLoop_zero {α : Type} (pages : Nat → Nat → Except HttpErr (Page α))
    (maxResults i : Nat) (videos : List α) :
    likedLoop pages maxResults 0 i videos
      = if videos.length < maxResults then none else some (Except.ok videos) := rfl

theorem likedLoop_succ_ok {α : Type} (src : Nat → Nat → Page α)
    (maxResults fuel i : Nat) (videos : List α) :
    likedLoop (fun i n => Except.ok (src i n)) maxResults (fuel + 1) i videos
      = if videos.length < maxResults then
          (if (src i (min 50 (maxResults - videos.length))).hasNext
              ∧ (videos ++ (src i (min 50 (maxResults - videos.length))).items.filterMap id).length
                  < maxResults
           then likedLoop (fun i n => Except.ok (src i n)) maxResults fuel (i + 1)
                  (videos ++ (src i (min 50 (maxResults - videos.length))).items.filterMap id)
           else some (Except.ok
                  (videos ++ (src i (min 50 (maxResults - videos.length))).items.filterMap id)))
        else some (Except.ok videos) := rfl

theorem filterMap_id_replicate_none {α : Type} :
    ∀ k, (List.replicate k (none : Option α)).filterMap id = []
  | 0 => rfl
  | k + 1 => by
      rw [List.replicate_succ, List.filterMap_cons]
      simp [filterMap_id_replicate_none k]

theorem likedLoop_length_le {α : Type} (src : Nat → Nat → Page α) (maxResults : Nat)
    (hbound : ∀ i n, (src i n).items.length ≤ n) :
    ∀ (fuel i : Nat) (videos : List α), videos.length ≤ maxResults →
      ∀ vs, likedLoop (fun i n => Except.ok (src i n)) maxResults fuel i videos
              = some (Except.ok vs) → vs.length ≤ maxResults
  | 0, i, videos, hv, vs, h => by
      rw [likedLoop_zero] at h
      by_cases hlt : videos.length < maxResults
      · rw [if_pos hlt] at h
        exact absurd h (by simp)
      · rw [if_neg hlt] at h
        simp only [Option.some.injEq, Except.ok.injEq] at h
        subst h
        exact hv
  | fuel + 1, i, videos, hv, vs, h => by
      rw [likedLoop_succ_ok] at h
      by_cases hlt : videos.length < maxResults
      · rw [if_pos hlt] at h
        have h1 : ((src i (min 50 (maxResults - videos.length))).items.filterMap id).length
            ≤ (src i (min 50 (maxResults - videos.length))).items.length :=
          List.length_filterMap_le _ _
        have h2 := hbound i (min 50 (maxResults - videos.length))
        have h3 : min 50 (maxResults - videos.length) ≤ maxResults - videos.length :=
          Nat.min_le_right _ _
        have hkl : (videos ++ (src i (min 50 (maxResults - videos.length))).items.filterMap id).length
            ≤ maxResults := by
          rw [List.length_append]
          omega
        by_cases hc : (src i (min 50 (maxResults - videos.length))).hasNext
            ∧ (videos ++ (src i (min 50 (maxResults - videos.length))).items.filterMap id).length
                < maxResults
        · rw [if_pos hc] at h
          exact likedLoop_length_le src maxResults hbound fuel (i + 1) _ hkl vs h
        · rw [if_neg hc] at h
          simp only [Option.some.injEq, Except.ok.injEq] at h
          subst h
          exact hkl
      · rw [if_neg hlt] at h
        simp only [Option.some.injEq, Except.ok.injEq] at h
        subst h
        exact hv

theorem likedLoop_skips_missing {α : Type} (src : Nat → Nat → Page α) (maxResults : Nat)
    (junk : Nat → Nat → Nat) :
    ∀ (fuel i : Nat) (videos : List α),
      likedLoop (fun i n => Except.ok
          (Page.mk (List.replicate (junk i n) none ++ (src i n).items) (src i n).hasNext))
          maxResults fuel i videos
        = likedLoop (fun i n => Except.ok (src i n)) maxResults fuel i videos
  | 0, i, videos => by rw [likedLoop_zero, likedLoop_zero]
  | fuel + 1, i, videos => by
      rw [likedLoop_succ_ok (fun i n =>
            Page.mk (List.replicate (junk i n) none ++ (src i n).items) (src i n).hasNext),
          likedLoop_succ_ok src]
      simp only [List.filterMap_append, filterMap_id_replicate_none, List.nil_append]
      rw [likedLoop_skips_missing src maxResults junk fuel (i + 1)
            (videos ++ (src i (min 50 (maxResults - videos.length))).items.filterMap id)]

theorem likedLoop_reaches_max {α : Type} (src : Nat → Nat → Page α) (maxResults : Nat)
    (hfull : ∀ i n, ((src i n).items.filterMap id).length = n)
    (htok : ∀ i n, (src i n).hasNext = true) :
    ∀ (fuel i : Nat) (videos : List α), videos.length ≤ maxResults →
      maxResults ≤ videos.length + 50 * fuel →
      ∃ vs, likedLoop (fun i n => Except.ok (src i n)) maxResults fuel i videos
              = some (Except.ok vs) ∧ vs.length = maxResults
  | 0, i, videos, hle, hge => by
      rw [likedLoop_zero]
      rw [if_neg (by omega)]
      exact ⟨videos, rfl, by omega⟩
  | fuel + 1, i, videos, hle, hge => by
      rw [likedLoop_succ_ok]
      by_cases hlt : videos.length < maxResults
      · rw [if_pos hlt]
        have hk : (videos ++ (src i (min 50 (maxResults - videos.length))).items.filterMap id).length
            = videos.length + min 50 (maxResults - videos.length) := by
          rw [List.length_append, hfull]
        by_cases hsplit : maxResults - videos.length ≤ 50
        · have hmin : min 50 (maxResults - videos.length) = maxResults - videos.length := by
            omega
          by_cases hc : (src i (min 50 (maxResults - videos.length))).hasNext
              ∧ (videos ++ (src i (min 50 (maxResults - videos.length))).items.filterMap id).length
                  < maxResults
          · exact absurd hc.2 (by omega)
          · rw [if_neg hc]
            exact ⟨_, rfl, by omega⟩
        · have hmin : min 50 (maxResults - videos.length) = 50 := by omega
          have hc : (src i (min 50 (maxResults - videos.length))).hasNext
              ∧ (videos ++ (src i (min 50 (maxResults - videos.length))).items.filterMap id).length
                  < maxResults := ⟨by simp [htok], by omega⟩
          rw [if_pos hc]
          exact likedLoop_reaches_max src maxResults hfull htok fuel (i + 1) _
            (by omega) (by omega)
      · rw [if_neg hlt]
        exact ⟨videos, rfl, by omega⟩

/-- C5: the liked-videos loop (a) never returns more items than the requested
maximum when every served page respects the requested page size
`min(50, remaining)`, (b) items without a resolvable video id are skipped
without counting — inserting any number of id-less items at the front of every
page leaves the result unchanged, (c) reaches exactly the requested maximum
when the source always serves full pages with continuation tokens and the page
budget suffices, and (d) stops at the first page carrying no continuation
token, returning the identifiable items accumulated so far. -/
theorem liked_videos_pagination {α : Type} (src : Nat → Nat → Page α)
    (maxResults fuel : Nat)
    (hbound : ∀ i n, (src i n).items.length ≤ n) :
    (∀ vs, likedLoop (fun i n => Except.ok (src i n)) maxResults fuel 0 []
             = some (Except.ok vs) → vs.length ≤ maxResults)
    ∧ (∀ junk : Nat → Nat → Nat,
        likedLoop (fun i n => Except.ok
            (Page.mk (List.replicate (junk i n) none ++ (src i n).items) (src i n).hasNext))
            maxResults fuel 0 []
          = likedLoop (fun i n => Except.ok (src i n)) maxResults fuel 0 [])
    ∧ ((∀ i n, ((src i n).items.filterMap id).length = n) →
       (∀ i n, (src i n).hasNext = true) →
       maxResults ≤ 50 * fuel →
       ∃ vs, likedLoop (fun i n => Except.ok (src i n)) maxResults fuel 0 []
               = some (Except.ok vs) ∧ vs.length = maxResults)
    ∧ (∀ f, fuel = f + 1 → 0 < maxResults →
        (src 0 (min 50 maxResults)).hasNext = false →
        likedLoop (fun i n => Except.ok (src i n)) maxResults fuel 0 []
          = some (Except.ok ((src 0 (min 50 maxResults)).items.filterMap id))) := by
  refine ⟨fun vs h => likedLoop_length_le src maxResults hbound fuel 0 [] (by simp) vs h,
    fun junk => likedLoop_skips_missing src maxResults junk fuel 0 [],
    fun hfull htok hge =>
      likedLoop_reaches_max src maxResults hfull htok fuel 0 [] (by simp) (by simpa using hge),
    ?_⟩
  rintro f rfl hpos htokf
  rw [likedLoop_succ_ok]
  simp only [List.length_nil, Nat.sub_zero, List.nil_append]
  rw [if_pos hpos]
  rw [if_neg (by simp [htokf])]

/-! ### Year extraction -/

theorem yearAt_cons (prev : Option Char) (c1 c2 c3 c4 : Char) (rest : List Char) :
    yearAt prev (c1 :: c2 :: c3 :: c4 :: rest)
      = if (boundaryBefore prev
             && (((c1 == '1' && c2 == '9') && (isDigitChar c3 && isDigitChar c4))
                 || ((c1 == '2' && c2 == '0')
                     && ((48 ≤ c3.toNat && c3.toNat ≤ 50) && isDigitChar c4)))
             && boundaryAfter rest) = true
        then some ((c1.toNat - 48) * 1000 + (c2.toNat - 48) * 100
                   + (c3.toNat - 48) * 10 + (c4.toNat - 48))
        else none := rfl

theorem searchYear_cons (prev : Option Char) (c : Char) (rest : List Char) :
    searchYear prev (c :: rest)
      = match yearAt prev (c :: rest) with
        | some y => some y
        | none => searchYear (some c) rest := rfl

theorem lastChar_nil (prev : Option Char) : lastChar prev [] = prev := rfl

theorem lastChar_cons (prev : Option Char) (c : Char) (pre : List Char) :
    lastChar prev (c :: pre) = lastChar (some c) pre := rfl

theorem char_eq_of_toNat {c d : Char} (h : c.toNat = d.toNat) : c = d := by
  have h1 := Char.ofNat_toNat c
  have h2 := Char.ofNat_toNat d
  rw [h] at h1
  exact h1.symm.trans h2

/-- One match attempt succeeds exactly on a four-digit run whose value lies in
[1900, 1999] or [2000, 2029], with non-word characters (or the text edge) on
both sides, and returns that value. -/
theorem yearAt_eq_some_iff (prev : Option Char) (s : List Char) (y : Nat) :
    yearAt prev s = some y ↔
      ∃ c1 c2 c3 c4 rest, s = c1 :: c2 :: c3 :: c4 :: rest
        ∧ isDigitChar c1 = true ∧ isDigitChar c2 = true
        ∧ isDigitChar c3 = true ∧ isDigitChar c4 = true
        ∧ y = (c1.toNat - 48) * 1000 + (c2.toNat - 48) * 100
              + (c3.toNat - 48) * 10 + (c4.toNat - 48)
        ∧ ((1900 ≤ y ∧ y ≤ 1999) ∨ (2000 ≤ y ∧ y ≤ 2029))
        ∧ (∀ p, prev = some p → isWordChar p = false)
        ∧ (∀ r rs, rest = r :: rs → isWordChar r = false) := by
  match s with
  | [] => simp [yearAt]
  | [c1] => simp [yearAt]
  | [c1, c2] => simp [yearAt]
  | [c1, c2, c3] => simp [yearAt]
  | c1 :: c2 :: c3 :: c4 :: rest =>
      rw [yearAt_cons]
      constructor
      · intro h
        split at h
        case isFalse => exact absurd h (by simp)
        case isTrue hc =>
          have hy : y = (c1.toNat - 48) * 1000 + (c2.toNat - 48) * 100
              + (c3.toNat - 48) * 10 + (c4.toNat - 48) := (Option.some_inj.mp h).symm
          simp only [Bool.and_eq_true, Bool.or_eq_true, beq_iff_eq,
            decide_eq_true_eq] at hc
          obtain ⟨⟨hA, hB⟩, hC⟩ := hc
          have hprev : ∀ p, prev = some p → isWordChar p = false := by
            intro p hp
            rw [hp] at hA
            simpa [boundaryBefore] using hA
          have hrest : ∀ r rs, rest = r :: rs → isWordChar r = false := by
            intro r rs hr
            rw [hr] at hC
            simpa [boundaryAfter] using hC
          have hd3 : isDigitChar c3 = true := by
            cases hB with
            | inl hb => exact hb.2.1
            | inr hb =>
                have h3 := hb.2.1
                simp only [isDigitChar, Bool.and_eq_true, decide_eq_true_eq]
                omega
          have hd4 : isDigitChar c4 = true := by
            cases hB with
            | inl hb => exact hb.2.2
            | inr hb => exact hb.2.2
          have hd1 : isDigitChar c1 = true := by
            cases hB with
            | inl hb => rw [hb.1.1]; decide
            | inr hb => rw [hb.1.1]; decide
          have hd2 : isDigitChar c2 = true := by
            cases hB with
            | inl hb => rw [hb.1.2]; decide
            | inr hb => rw [hb.1.2]; decide
          have hrange : (1900 ≤ y ∧ y ≤ 1999) ∨ (2000 ≤ y ∧ y ≤ 2029) := by
            have b3 : 48 ≤ c3.toNat ∧ c3.toNat ≤ 57 := by
              simpa [isDigitChar] using hd3
            have b4 : 48 ≤ c4.toNat ∧ c4.toNat ≤ 57 := by
              simpa [isDigitChar] using hd4
            cases hB with
            | inl hb =>
                obtain ⟨⟨e1, e2⟩, -, -⟩ := hb
                subst e1; subst e2
                left
                have t1 : ('1' : Char).toNat = 49 := by decide
                have t2 : ('9' : Char).toNat = 57 := by decide
                omega
            | inr hb =>
                obtain ⟨⟨e1, e2⟩, h3, -⟩ := hb
                subst e1; subst e2
                right
                have t1 : ('2' : Char).toNat = 50 := by decide
                have t2 : ('0' : Char).toNat = 48 := by decide
                omega
          exact ⟨c1, c2, c3, c4, rest, rfl, hd1, hd2, hd3, hd4, hy, hrange, hprev, hrest⟩
      · rintro ⟨c1', c2', c3', c4', rest', heq, hd1, hd2, hd3, hd4, hy, hrange, hprev, hrest⟩
        simp only [List.cons.injEq] at heq
        obtain ⟨rfl, rfl, rfl, rfl, rfl⟩ := heq
        have b1 : 48 ≤ c1.toNat ∧ c1.toNat ≤ 57 := by simpa [isDigitChar] using hd1
        have b2 : 48 ≤ c2.toNat ∧ c2.toNat ≤ 57 := by simpa [isDigitChar] using hd2
        have b3 : 48 ≤ c3.toNat ∧ c3.toNat ≤ 57 := by simpa [isDigitChar] using hd3
        have b4 : 48 ≤ c4.toNat ∧ c4.toNat ≤ 57 := by simpa [isDigitChar] using hd4
        have hA : boundaryBefore prev = true := by
          cases prev with
          | none => rfl
          | some p => simp [boundaryBefore, hprev p rfl]
        have hC : boundaryAfter rest = true := by
          cases rest with
          | nil => rfl
          | cons r rs => simp [boundaryAfter, hrest r rs rfl]
        have hB : (((c1 == '1' && c2 == '9') && (isDigitChar c3 && isDigitChar c4))
            || ((c1 == '2' && c2 == '0')
                && ((48 ≤ c3.toNat && c3.toNat ≤ 50) && isDigitChar c4))) = true := by
          cases hrange with
          | inl hr =>
              have e1 : c1 = '1' := char_eq_of_toNat (by
                have : c1.toNat = 49 := by omega
                rw [this]; decide)
              have e2 : c2 = '9' := char_eq_of_toNat (by
                have : c2.toNat = 57 := by omega
                rw [this]; decide)
              simp [e1, e2, hd3, hd4]
          | inr hr =>
              have e1 : c1 = '2' := char_eq_of_toNat (by
                have : c1.toNat = 50 := by omega
                rw [this]; decide)
              have e2 : c2 = '0' := char_eq_of_toNat (by
                have : c2.toNat = 48 := by omega
                rw [this]; decide)
              have h3 : c3.toNat ≤ 50 := by omega
              simp [e1, e2, hd4, h3, b3.1]
        rw [if_pos (by rw [Bool.and_eq_true, Bool.and_eq_true]; exact ⟨⟨hA, hB⟩, hC⟩)]
        rw [hy]

/-- `searchYear` returns `some y` exactly when the text splits as
`pre ++ post` with a year match at the head of `post` yielding `y` and no
match at any earlier position — the leftmost-match rule of `re.search`. -/
theorem searchYear_eq_some_iff (y : Nat) :
    ∀ (s : List Char) (prev : Option Char),
      searchYear prev s = some y ↔
        ∃ pre post, s = pre ++ post ∧ yearAt (lastChar prev pre) post = some y
          ∧ ∀ pre' post', s = pre' ++ post' → pre'.length < pre.length →
              yearAt (lastChar prev pre') post' = none
  | [], prev => by
      constructor
      · intro h
        exact absurd h (by simp [searchYear])
      · rintro ⟨pre, post, hs, hy, -⟩
        obtain ⟨rfl, rfl⟩ := List.append_eq_nil.mp hs.symm
        have hnil : yearAt (lastChar prev []) ([] : List Char) = none := rfl
        rw [hnil] at hy
        exact absurd hy (by simp)
  | c :: rest, prev => by
      cases hy0 : yearAt prev (c :: rest) with
      | some y0 =>
          constructor
          · intro h
            rw [searchYear_cons, hy0] at h
            have hv : y0 = y := Option.some_inj.mp h
            refine ⟨[], c :: rest, rfl, ?_, ?_⟩
            · show yearAt prev (c :: rest) = some y
              rw [hy0, hv]
            · intro pre' post' _ hlt
              exact absurd hlt (by simp)
          · rintro ⟨pre, post, hs, hyy, hmin⟩
            cases pre with
            | nil =>
                rw [List.nil_append] at hs
                subst hs
                rw [lastChar_nil, hy0] at hyy
                rw [searchYear_cons, hy0]
                exact hyy
            | cons p ps =>
                have hnone := hmin [] (c :: rest) rfl (by simp)
                rw [lastChar_nil, hy0] at hnone
                exact absurd hnone (by simp)
      | none =>
          have hL : searchYear prev (c :: rest) = searchYear (some c) rest := by
            rw [searchYear_cons, hy0]
          rw [hL, searchYear_eq_some_iff y rest (some c)]
          constructor
          · rintro ⟨pre, post, hs, hyy, hmin⟩
            refine ⟨c :: pre, post, by rw [List.cons_append, hs], ?_, ?_⟩
            · rw [lastChar_cons]
              exact hyy
            · intro pre' post' hs' hlt
              cases pre' with
              | nil =>
                  rw [List.nil_append] at hs'
                  subst hs'
                  exact hy0
              | cons p' ps' =>
                  rw [List.cons_append] at hs'
                  injection hs' with h1 h2
                  subst h1
                  rw [lastChar_cons]
                  exact hmin ps' post' h2 (by simpa using hlt)
          · rintro ⟨pre, post, hs, hyy, hmin⟩
            cases pre with
            | nil =>
                rw [List.nil_append] at hs
                subst hs
                rw [lastChar_nil, hy0] at hyy
                exact absurd hyy (by simp)
            | cons p ps =>
                rw [List.cons_append] at hs
                injection hs with h1 h2
                subst h1
                refine ⟨ps, post, h2, ?_, ?_⟩
                · rw [lastChar_cons] at hyy
                  exact hyy
                · intro pre' post' hs' hlt
                  have hstep := hmin (c :: pre') post'
                    (by rw [List.cons_append, hs']) (by simpa using hlt)
                  rw [lastChar_cons] at hstep
                  exact hstep

/-- `searchYear` returns `none` exactly when no position of the text carries a
year match. -/
theorem searchYear_eq_none_iff :
    ∀ (s : List Char) (prev : Option Char),
      searchYear prev s = none ↔
        ∀ pre post, s = pre ++ post → yearAt (lastChar prev pre) post = none
  | [], prev => by
      constructor
      · intro _ pre post hs
        obtain ⟨rfl, rfl⟩ := List.append_eq_nil.mp hs.symm
        rfl
      · intro _
        rfl
  | c :: rest, prev => by
      cases hy0 : yearAt prev (c :: rest) with
      | some y0 =>
          constructor
          · intro h
            rw [searchYear_cons, hy0] at h
            exact absurd h (by simp)
          · intro h
            have hstep := h [] (c :: rest) rfl
            rw [lastChar_nil, hy0] at hstep
            exact absurd hstep (by simp)
      | none =>
          have hL : searchYear prev (c :: rest) = searchYear (some c) rest := by
            rw [searchYear_cons, hy0]
          rw [hL, searchYear_eq_none_iff rest (some c)]
          constructor
          · intro h pre post hs
            cases pre with
            | nil =>
                rw [List.nil_append] at hs
                subst hs
                exact hy0
            | cons p ps =>
                rw [List.cons_append] at hs
                injection hs with h1 h2
                subst h1
                rw [lastChar_cons]
                exact h ps post h2
          · intro h pre post hs
            have hstep := h (c :: pre) post (by rw [List.cons_append, hs])
            rw [lastChar_cons] at hstep
            exact hstep

/-- C7: `extract_year` returns `some y` exactly when the text splits as
`pre ++ post` where a word-bounded four-digit year in [1900, 1999] or
[2000, 2029] starts `post` with value `y`, and no earlier position matches
(only the first match counts); it returns `none` when no position matches;
and on the design document's examples it yields 1999, 2023 and — for the
six-digit run "193847", which fails the trailing word boundary — none. -/
theorem extract_year_spec (t : String) :
    (∀ y, extract_year t = some y ↔
        ∃ pre post, t.data = pre ++ post ∧ yearAt (lastChar none pre) post = some y
          ∧ ∀ pre' post', t.data = pre' ++ post' → pre'.length < pre.length →
              yearAt (lastChar none pre') post' = none)
    ∧ (extract_year t = none ↔
        ∀ pre post, t.data = pre ++ post → yearAt (lastChar none pre) post = none)
    ∧ (∀ prev s y, yearAt prev s = some y ↔
        ∃ c1 c2 c3 c4 rest, s = c1 :: c2 :: c3 :: c4 :: rest
          ∧ isDigitChar c1 = true ∧ isDigitChar c2 = true
          ∧ isDigitChar c3 = true ∧ isDigitChar c4 = true
          ∧ y = (c1.toNat - 48) * 1000 + (c2.toNat - 48) * 100
                + (c3.toNat - 48) * 10 + (c4.toNat - 48)
          ∧ ((1900 ≤ y ∧ y ≤ 1999) ∨ (2000 ≤ y ∧ y ≤ 2029))
          ∧ (∀ p, prev = some p → isWordChar p = false)
          ∧ (∀ r rs, rest = r :: rs → isWordChar r = false))
    ∧ extract_year "the 1999 hit" = some 1999
    ∧ extract_year "released 2023" = some 2023
    ∧ extract_year "catalog number 193847" = none :=
  ⟨fun y => searchYear_eq_some_iff y t.data none,
   searchYear_eq_none_iff t.data none,
   yearAt_eq_some_iff,
   by decide, by decide, by decide⟩

/-- Witness for C5: a source serving full pages of the requested size with
continuation tokens, queried for 120 items with a three-page budget, yields
exactly 120 items. -/
theorem liked_videos_pagination_witness :
    ∃ vs, likedLoop (fun _ n => Except.ok (Page.mk ((List.range n).map some) true))
            120 3 0 ([] : List Nat)
            = some (Except.ok vs) ∧ vs.length = 120 :=
  (liked_videos_pagination (fun _ n => Page.mk ((List.range n).map some) true) 120 3
      (by simp)).2.2.1
    (by simp [List.filterMap_map])
    (by simp)
    (by norm_num)

end YTMusic
